import Mathlib

/-!
# Verification of `AttrScrollAnimator` (src/AttrScrollAnimator.js)

A shallow embedding of the scroll-animation engine.  JavaScript numbers are
modelled as `ℚ`; a possibly-NaN number is `Option ℚ` with `none` standing for
NaN.  Attribute reads (`getAttribute`) return `Option String`, `none` standing
for a missing attribute; JS string truthiness (`!value`) is `truthy`.
Class lists are `List String` with set semantics (`classList.add` appends only
when absent, `classList.remove` filters).
-/

namespace ASA

/-- JS truthiness of a `getAttribute` result: `null` and `""` are falsy. -/
def truthy : Option String → Bool
  | none => false
  | some s => s ≠ ""

/-- `String.endsWith`, computed over character lists. -/
def strEndsWith (s suf : String) : Bool :=
  suf.toList.isSuffixOf s.toList

/-- Decimal digit value of a character, `none` for a non-digit. -/
def digitVal (c : Char) : Option ℕ :=
  if c.isDigit then some (c.toNat - 48) else none

/-- Whitespace characters skipped by JS `parseInt` / `parseFloat`. -/
def isJsWs (c : Char) : Bool :=
  c = ' ' ∨ c = '\t' ∨ c = '\n' ∨ c = '\r'

/-- Longest run of decimal digits at the head of the list, with the rest. -/
def readDigits : List Char → List ℕ × List Char
  | [] => ([], [])
  | c :: rest =>
    match digitVal c with
    | some d =>
      let (ds, r) := readDigits rest
      (d :: ds, r)
    | none => ([], c :: rest)

/-- Optional leading sign: whether the value is negated, and the rest. -/
def readSign : List Char → Bool × List Char
  | '-' :: rest => (true, rest)
  | '+' :: rest => (false, rest)
  | cs => (false, cs)

/-- Value of a big-endian digit list. -/
def digitsToNat (ds : List ℕ) : ℕ :=
  ds.foldl (fun a d => 10 * a + d) 0

/-- Syntactic part of JS `parseInt(s, 10)`: skip whitespace, optional sign,
then the longest digit run; `none` (NaN) when no digit is found. -/
def intScan (s : String) : Option (Bool × List ℕ) :=
  let cs := s.toList.dropWhile isJsWs
  let (neg, cs) := readSign cs
  let (ds, _) := readDigits cs
  if ds.isEmpty then none else some (neg, ds)

/-- Model of JS `parseInt(s, 10)`. -/
def jsParseInt (s : String) : Option ℤ :=
  (intScan s).map fun p =>
    if p.1 then -(digitsToNat p.2 : ℤ) else (digitsToNat p.2 : ℤ)

/-- Syntactic part of JS `parseFloat`: sign, integer digits, fraction digits
and exponent of the longest decimal-literal run `digits [. digits] [exp]`;
`none` (NaN) when no mantissa digit is found.  An incomplete exponent part
(no digit after `e`) is not part of the literal.  The `Infinity` literal is
not modelled (no claim exercises it). -/
def floatScan (s : String) : Option (Bool × List ℕ × List ℕ × ℤ) :=
  let cs := s.toList.dropWhile isJsWs
  let (neg, cs) := readSign cs
  let (ids, cs) := readDigits cs
  let (fds, cs) :=
    match cs with
    | '.' :: rest => readDigits rest
    | _ => ([], cs)
  if ids.isEmpty ∧ fds.isEmpty then none
  else
    let e : ℤ :=
      match cs with
      | c :: rest =>
        if c = 'e' ∨ c = 'E' then
          let (eneg, cs2) := readSign rest
          let (eds, _) := readDigits cs2
          if eds.isEmpty then 0
          else if eneg then -(digitsToNat eds : ℤ) else (digitsToNat eds : ℤ)
        else 0
      | [] => 0
    some (neg, ids, fds, e)

/-- `q * 10 ^ e` for an integer exponent. -/
def applyExp (q : ℚ) (e : ℤ) : ℚ :=
  if 0 ≤ e then q * (10 : ℚ) ^ e.toNat else q / (10 : ℚ) ^ (-e).toNat

/-- Rational value of a scanned float literal (stands for the IEEE double). -/
def ratOfScan (p : Bool × List ℕ × List ℕ × ℤ) : ℚ :=
  let mant : ℚ :=
    (digitsToNat p.2.1 : ℚ) + (digitsToNat p.2.2.1 : ℚ) / (10 : ℚ) ^ p.2.2.1.length
  let v := applyExp mant p.2.2.2
  if p.1 then -v else v

/-- Model of JS `parseFloat(s)`. -/
def jsParseFloat (s : String) : Option ℚ :=
  (floatScan s).map ratOfScan

/-- `parseThreshold` from src/AttrScrollAnimator.js, with
`options.viewportPosition = 0.75` (the constructor default) and the current
`window.innerHeight` passed as `h`.  A missing attribute or an empty value is
falsy (`!value`); a `px`-suffixed value goes through `parseInt` and the
division (NaN propagating as `none`); otherwise `parseFloat`, with the
default on NaN. -/
def parseThreshold (value : Option String) (h : ℚ) : Option ℚ :=
  if ¬ truthy value then some (3 / 4)
  else
    let v := value.getD ""
    if strEndsWith v "px" then (jsParseInt v).map (fun n => (n : ℚ) / h)
    else
      match jsParseFloat v with
      | some parsed => some parsed
      | none => some (3 / 4)

/-- `parseStaggerDelay` from src/AttrScrollAnimator.js: falsy value → `0`;
`ms` suffix → `parseFloat` of the whole string; `s` suffix → `parseFloat`
times 1000; otherwise `parseFloat`.  NaN (`none`) propagates. -/
def parseStaggerDelay (value : Option String) : Option ℚ :=
  if ¬ truthy value then some 0
  else
    let v := value.getD ""
    if strEndsWith v "ms" then jsParseFloat v
    else if strEndsWith v "s" then (jsParseFloat v).map (· * 1000)
    else jsParseFloat v

example : intScan "150px" = some (false, [1, 5, 0]) := by decide
example : jsParseInt "150px" = some 150 := by decide
example : floatScan "0.1s" = some (false, [0], [1], 0) := by decide
example : floatScan "abc" = none := by decide
example : jsParseFloat "0.1s" = some (1 / 10) := by
  have h : floatScan "0.1s" = some (false, [0], [1], 0) := by decide
  norm_num [jsParseFloat, h, ratOfScan, applyExp, digitsToNat, List.foldl]
example : parseThreshold (some "150px") 1000 = some (3 / 20) := by
  have h1 : truthy (some "150px") = true := by decide
  have h2 : strEndsWith "150px" "px" = true := by decide
  have h3 : jsParseInt "150px" = some 150 := by decide
  norm_num [parseThreshold, h1, h2, h3]
example : parseThreshold (some "foopx") 1000 = none := by
  have h1 : truthy (some "foopx") = true := by decide
  have h2 : strEndsWith "foopx" "px" = true := by decide
  have h3 : jsParseInt "foopx" = none := by decide
  simp [parseThreshold, h1, h2, h3]
example : parseStaggerDelay (some "abc") = none := by
  have h1 : truthy (some "abc") = true := by decide
  have h2 : strEndsWith "abc" "ms" = false := by decide
  have h3 : strEndsWith "abc" "s" = false := by decide
  have h4 : floatScan "abc" = none := by decide
  simp [parseStaggerDelay, h1, h2, h3, jsParseFloat, h4]
example : parseStaggerDelay (some "0.1s") = some 100 := by
  have h1 : truthy (some "0.1s") = true := by decide
  have h2 : strEndsWith "0.1s" "ms" = false := by decide
  have h3 : strEndsWith "0.1s" "s" = true := by decide
  have h4 : floatScan "0.1s" = some (false, [0], [1], 0) := by decide
  norm_num [parseStaggerDelay, h1, h2, h3, jsParseFloat, h4, ratOfScan, applyExp,
    digitsToNat, List.foldl]

/-! ## Elements, class lists and the intersection handler -/

/-- A DOM element as the engine sees it: its data attributes (`none` for a
missing attribute) and its class list. -/
structure Element where
  animationClass : Option String
  thresholdAttr : Option String
  reverseAttr : Option String
  childrenAttr : Option String
  staggerAttr : Option String
  debugAttr : Option String
  classList : List String
deriving DecidableEq, Repr

/-- `classList.add`: appends only when the class is absent. -/
def addClass (c : String) (l : List String) : List String :=
  if c ∈ l then l else l ++ [c]

/-- `classList.remove`: drops every occurrence. -/
def removeClass (c : String) (l : List String) : List String :=
  l.filter (fun x => x ≠ c)

/-- `classList.contains`. -/
def hasClass (c : String) (l : List String) : Bool :=
  l.contains c

/-- `reverseAttr && reverseAttr !== 'true'` from `handleIntersection`. -/
def hasReverseClass (reverseAttr : Option String) : Bool :=
  truthy reverseAttr && reverseAttr != some "true"

/-- `hasReverseClass ? reverseAttr : null`. -/
def reverseClassOf (reverseAttr : Option String) : Option String :=
  if hasReverseClass reverseAttr then reverseAttr else none

/-- `childrenAttr && childrenAttr !== 'false'` from `handleIntersection`. -/
def delegatesToChildren (childrenAttr : Option String) : Bool :=
  truthy childrenAttr && childrenAttr != some "false"

/-- Outcome of one intersection callback on one entry: the element (with its
possibly updated class list), the `hasAnimatedIn` membership for it, and
`some dir` when `animateChildren(element, dir)` was invoked. -/
structure StepOut where
  elem : Element
  entered : Bool
  childrenCall : Option Bool
deriving DecidableEq, Repr

/-- One entry of `handleIntersection` from src/AttrScrollAnimator.js.
`h` is `window.innerHeight`, `threshold` the stored
`observedThresholds.get(element)` (with the `?? 0.75` default applied by the
caller of this model), `elementTop` is `entry.boundingClientRect.top`, and
`entered` is `hasAnimatedIn.has(element)`. -/
def handleEntry (h threshold elementTop : ℚ) (e : Element) (entered : Bool) :
    StepOut :=
  if ¬ truthy e.animationClass then ⟨e, entered, none⟩
  else
    let cls := e.animationClass.getD ""
    let triggerLine := h * threshold
    let reverseClass := reverseClassOf e.reverseAttr
    let animateCh := delegatesToChildren e.childrenAttr
    if elementTop ≤ triggerLine then
      if animateCh then ⟨e, true, some true⟩
      else
        let l1 := addClass cls e.classList
        let l2 := match reverseClass with
          | some rc => removeClass rc l1
          | none => l1
        ⟨{ e with classList := l2 }, true, none⟩
    else if truthy e.reverseAttr && entered then
      if animateCh then ⟨e, entered, some false⟩
      else
        let l1 := removeClass cls e.classList
        let l2 := match reverseClass with
          | some rc => addClass rc l1
          | none => l1
        ⟨{ e with classList := l2 }, entered, none⟩
    else ⟨e, entered, none⟩

/-- A sequence of intersection callbacks for one element: fold `handleEntry`
over the successive `boundingClientRect.top` values, threading the class list
and the `hasAnimatedIn` flag. -/
def runTops (h threshold : ℚ) (tops : List ℚ) (e : Element) (entered : Bool) :
    Element × Bool :=
  match tops with
  | [] => (e, entered)
  | t :: rest =>
    let out := handleEntry h threshold t e entered
    runTops h threshold rest out.elem out.entered

/-- The element with its class list replaced (attributes untouched). -/
def withClasses (e : Element) (l : List String) : Element :=
  { e with classList := l }

/-- Class list after the non-delegated ENTER action: add the animation class;
when a reverse class is configured, remove it. -/
def enterClassList (e : Element) : List String :=
  match reverseClassOf e.reverseAttr with
  | some rc => removeClass rc (addClass (e.animationClass.getD "") e.classList)
  | none => addClass (e.animationClass.getD "") e.classList

/-- Class list after the non-delegated EXIT action: remove the animation
class; when a reverse class is configured, add it. -/
def exitClassList (e : Element) : List String :=
  match reverseClassOf e.reverseAttr with
  | some rc => addClass rc (removeClass (e.animationClass.getD "") e.classList)
  | none => removeClass (e.animationClass.getD "") e.classList

theorem handleEntry_no_cls (h th t : ℚ) (e : Element) (b : Bool)
    (hc : truthy e.animationClass = false) :
    handleEntry h th t e b = ⟨e, b, none⟩ := by
  simp [handleEntry, hc]

theorem handleEntry_enter_deleg (h th t : ℚ) (e : Element) (b : Bool)
    (hc : truthy e.animationClass = true) (hle : t ≤ h * th)
    (hd : delegatesToChildren e.childrenAttr = true) :
    handleEntry h th t e b = ⟨e, true, some true⟩ := by
  simp [handleEntry, hc, hle, hd]

theorem handleEntry_enter_direct (h th t : ℚ) (e : Element) (b : Bool)
    (hc : truthy e.animationClass = true) (hle : t ≤ h * th)
    (hd : delegatesToChildren e.childrenAttr = false) :
    handleEntry h th t e b = ⟨{ e with classList := enterClassList e }, true, none⟩ := by
  simp [handleEntry, hc, hle, hd, enterClassList]

theorem handleEntry_exit_deleg (h th t : ℚ) (e : Element)
    (hc : truthy e.animationClass = true) (hnle : ¬ t ≤ h * th)
    (hr : truthy e.reverseAttr = true)
    (hd : delegatesToChildren e.childrenAttr = true) :
    handleEntry h th t e true = ⟨e, true, some false⟩ := by
  simp [handleEntry, hc, hnle, hr, hd]

theorem handleEntry_exit_direct (h th t : ℚ) (e : Element)
    (hc : truthy e.animationClass = true) (hnle : ¬ t ≤ h * th)
    (hr : truthy e.reverseAttr = true)
    (hd : delegatesToChildren e.childrenAttr = false) :
    handleEntry h th t e true = ⟨{ e with classList := exitClassList e }, true, none⟩ := by
  simp [handleEntry, hc, hnle, hr, hd, exitClassList]

theorem handleEntry_noop (h th t : ℚ) (e : Element) (b : Bool)
    (hc : truthy e.animationClass = true) (hnle : ¬ t ≤ h * th)
    (hnr : (truthy e.reverseAttr && b) = false) :
    handleEntry h th t e b = ⟨e, b, none⟩ := by
  simp only [handleEntry, hc, hnr]
  simp [hnle, hnr]

/-- Scenario from spec §8: `fade-in`, no reverse, threshold 0.5, viewport 800;
top 350 enters; top 500 afterwards changes nothing. -/
example :
    runTops 800 (1 / 2) [350, 500]
      ⟨some "fade-in", some "0.5", none, none, none, none, []⟩ false =
      (⟨some "fade-in", some "0.5", none, none, none, none, ["fade-in"]⟩, true) := by
  have hT : truthy (some "fade-in") = true := by decide
  have hR : reverseClassOf (none : Option String) = none := rfl
  have hRT : truthy (none : Option String) = false := rfl
  have hD : delegatesToChildren (none : Option String) = false := rfl
  norm_num [runTops, handleEntry, hT, hR, hRT, hD, addClass]

theorem handleEntry_reverseAttr (h th t : ℚ) (e : Element) (b : Bool) :
    (handleEntry h th t e b).elem.reverseAttr = e.reverseAttr := by
  simp only [handleEntry]
  split_ifs <;> simp

theorem mem_addClass {c : String} (c' : String) {l : List String} (hm : c ∈ l) :
    c ∈ addClass c' l := by
  unfold addClass
  split_ifs <;> simp [hm]

theorem mem_classList_handleEntry (h th t : ℚ) (e : Element) (b : Bool)
    (c : String) (hrev : e.reverseAttr = none) (hmem : c ∈ e.classList) :
    c ∈ (handleEntry h th t e b).elem.classList := by
  have hrc : reverseClassOf e.reverseAttr = none := by
    simp [reverseClassOf, hasReverseClass, hrev, truthy]
  by_cases hcl : truthy e.animationClass
  · by_cases hle : t ≤ h * th
    · by_cases hd : delegatesToChildren e.childrenAttr
      · simp [handleEntry_enter_deleg h th t e b hcl hle hd, hmem]
      · rw [handleEntry_enter_direct h th t e b hcl hle (by simpa using hd)]
        simp only [enterClassList, hrc]
        exact mem_addClass _ hmem
    · have hng : (truthy e.reverseAttr && b) = false := by simp [hrev, truthy]
      simp [handleEntry_noop h th t e b hcl hle hng, hmem]
  · simp [handleEntry_no_cls h th t e b (by simpa using hcl), hmem]

/-! ## Sample elements used by concrete witnesses -/

def elemPlain : Element := ⟨some "fade-in", none, none, none, none, none, []⟩

def elemEntered : Element := ⟨some "fade-in", none, none, none, none, none, ["fade-in"]⟩

def elemRev : Element := ⟨some "fade-in", none, some "fade-out", none, none, none, []⟩

def elemRevIn : Element :=
  ⟨some "fade-in", none, some "fade-out", none, none, none, ["fade-in"]⟩

def elemRevFalse : Element :=
  ⟨some "fade-in", none, some "false", none, none, none, ["fade-in"]⟩

/-! ## Claims about the intersection handler -/

/-- Claim C1: for every crossing callback on a registered element (its
animation class attribute is set and non-empty), with trigger line
`y = h * threshold`: if `elementTop ≤ y`, the ENTER action is applied
(delegated: a fan-out call with direction "in" and the element itself
untouched; non-delegated: the ENTER class-list update) and the has-entered
flag is set true unconditionally, even when delegating; otherwise, if the
reverse attribute is present with a non-empty value (JS truthiness) and
has-entered is true, the EXIT action is applied; otherwise nothing changes. -/
theorem C1_crossing_callback_cases (h threshold elementTop : ℚ) (e : Element)
    (entered : Bool) (hcls : truthy e.animationClass = true) :
    (elementTop ≤ h * threshold →
      (handleEntry h threshold elementTop e entered).entered = true ∧
      (delegatesToChildren e.childrenAttr = true →
        handleEntry h threshold elementTop e entered = ⟨e, true, some true⟩) ∧
      (delegatesToChildren e.childrenAttr = false →
        handleEntry h threshold elementTop e entered =
          ⟨{ e with classList := enterClassList e }, true, none⟩)) ∧
    (¬ elementTop ≤ h * threshold → truthy e.reverseAttr = true →
      entered = true →
      (delegatesToChildren e.childrenAttr = true →
        handleEntry h threshold elementTop e entered = ⟨e, entered, some false⟩) ∧
      (delegatesToChildren e.childrenAttr = false →
        handleEntry h threshold elementTop e entered =
          ⟨{ e with classList := exitClassList e }, entered, none⟩)) ∧
    (¬ elementTop ≤ h * threshold → (truthy e.reverseAttr && entered) = false →
      handleEntry h threshold elementTop e entered = ⟨e, entered, none⟩) := by
  refine ⟨?_, ?_, ?_⟩
  · intro hle
    refine ⟨?_, ?_, ?_⟩
    · by_cases hd : delegatesToChildren e.childrenAttr
      · simp [handleEntry_enter_deleg h threshold elementTop e entered hcls hle hd]
      · simp [handleEntry_enter_direct h threshold elementTop e entered hcls hle
          (by simpa using hd)]
    · intro hd
      exact handleEntry_enter_deleg h threshold elementTop e entered hcls hle hd
    · intro hd
      exact handleEntry_enter_direct h threshold elementTop e entered hcls hle hd
  · intro hnle hr hb
    subst hb
    exact ⟨fun hd => handleEntry_exit_deleg h threshold elementTop e hcls hnle hr hd,
      fun hd => handleEntry_exit_direct h threshold elementTop e hcls hnle hr hd⟩
  · intro hnle hng
    exact handleEntry_noop h threshold elementTop e entered hcls hnle hng

/-- Witness for C1 at a concrete enter crossing. -/
theorem C1_crossing_callback_cases_witness :
    (handleEntry 1000 (3 / 4) 100 elemRev false).entered = true ∧
    handleEntry 1000 (3 / 4) 100 elemRev false =
      ⟨{ elemRev with classList := enterClassList elemRev }, true, none⟩ := by
  have H := C1_crossing_callback_cases 1000 (3 / 4) 100 elemRev false (by decide)
  have hle : (100 : ℚ) ≤ 1000 * (3 / 4) := by norm_num
  exact ⟨((H.1) hle).1, ((H.1) hle).2.2 (by decide)⟩

/-- Claim C2: with no reverse attribute, membership of a class (in
particular the animation class once added by an enter) is never lost over
any sequence of crossing callbacks; and for any element, an exit-direction
callback (`elementTop` above the trigger line) with the has-entered flag
still false changes nothing at all. -/
theorem C2_no_reverse_never_exits (h threshold : ℚ) :
    (∀ (e : Element) (entered : Bool) (tops : List ℚ) (c : String),
      e.reverseAttr = none → c ∈ e.classList →
      c ∈ (runTops h threshold tops e entered).1.classList) ∧
    (∀ (e : Element) (t : ℚ), ¬ t ≤ h * threshold →
      handleEntry h threshold t e false = ⟨e, false, none⟩) := by
  constructor
  · intro e entered tops
    induction tops generalizing e entered with
    | nil =>
      intro c _ hmem
      simpa [runTops] using hmem
    | cons t rest ih =>
      intro c hrev hmem
      simp only [runTops]
      exact ih _ _ c (by rw [handleEntry_reverseAttr]; exact hrev)
        (mem_classList_handleEntry h threshold t e entered c hrev hmem)
  · intro e t hnle
    by_cases hcl : truthy e.animationClass
    · exact handleEntry_noop h threshold t e false hcl hnle (by simp)
    · exact handleEntry_no_cls h threshold t e false (by simpa using hcl)

/-- Witness for C2: a no-reverse element keeps `fade-in` across callbacks in
both directions, and an exit-direction callback before any enter is inert. -/
theorem C2_no_reverse_never_exits_witness :
    "fade-in" ∈ (runTops 800 (1 / 2) [900, 350, 900] elemEntered false).1.classList ∧
    handleEntry 800 (1 / 2) 900 elemRev false = ⟨elemRev, false, none⟩ := by
  have H := C2_no_reverse_never_exits 800 (1 / 2)
  exact ⟨H.1 elemEntered false [900, 350, 900] "fade-in" rfl (by simp [elemEntered]),
    H.2 elemRev 900 (by norm_num)⟩

/-- Claim C6: non-delegated element whose reverse attribute holds a
(non-empty) value `r`.  If `r` is not the literal `"true"`, it names an
alternate class: EXIT removes the animation class then adds `r`, and ENTER
adds the animation class then removes `r`.  If `r` is exactly `"true"`,
EXIT only removes the animation class. -/
theorem C6_alternate_class_actions (h threshold t : ℚ) (e : Element)
    (entered : Bool) (r : String) (hcls : truthy e.animationClass = true)
    (hrev : e.reverseAttr = some r) (hne : r ≠ "")
    (hnd : delegatesToChildren e.childrenAttr = false) :
    (r ≠ "true" →
      (¬ t ≤ h * threshold → entered = true →
        (handleEntry h threshold t e entered).elem.classList =
          addClass r (removeClass (e.animationClass.getD "") e.classList)) ∧
      (t ≤ h * threshold →
        (handleEntry h threshold t e entered).elem.classList =
          removeClass r (addClass (e.animationClass.getD "") e.classList))) ∧
    (r = "true" → ¬ t ≤ h * threshold → entered = true →
      (handleEntry h threshold t e entered).elem.classList =
        removeClass (e.animationClass.getD "") e.classList) := by
  have htr : truthy e.reverseAttr = true := by simp [hrev, truthy, hne]
  constructor
  · intro hrt
    have hrc : reverseClassOf e.reverseAttr = some r := by
      simp [reverseClassOf, hasReverseClass, hrev, truthy, hne, hrt]
    constructor
    · intro hnle hb
      subst hb
      rw [handleEntry_exit_direct h threshold t e hcls hnle htr hnd]
      simp [exitClassList, hrc]
    · intro hle
      rw [handleEntry_enter_direct h threshold t e entered hcls hle hnd]
      simp [enterClassList, hrc]
  · intro hrt hnle hb
    subst hb hrt
    have hrc : reverseClassOf e.reverseAttr = none := by
      simp [reverseClassOf, hasReverseClass, hrev]
    rw [handleEntry_exit_direct h threshold t e hcls hnle htr hnd]
    simp [exitClassList, hrc]

/-- Witness for C6 at a concrete exit with reverse class `fade-out`. -/
theorem C6_alternate_class_actions_witness :
    (handleEntry 1000 (3 / 4) 900 elemRevIn true).elem.classList =
      addClass "fade-out" (removeClass "fade-in" elemRevIn.classList) := by
  have H := C6_alternate_class_actions 1000 (3 / 4) 900 elemRevIn true "fade-out"
    (by decide) rfl (by decide) (by decide)
  exact (H.1 (by decide)).1 (by norm_num) rfl

/-- Claim C10: a reverse attribute equal to the literal string `"false"` is
treated as a genuine alternate-class configuration, not as absent: exit is enabled
(after an enter) and the class `"false"` is added on exit while the
animation class is removed; whereas a children attribute equal to `"false"`
disables delegation. -/
theorem C10_false_literal_asymmetry (h threshold t : ℚ) (e : Element)
    (hcls : truthy e.animationClass = true)
    (hrev : e.reverseAttr = some "false")
    (hnd : delegatesToChildren e.childrenAttr = false) :
    hasReverseClass e.reverseAttr = true ∧
    reverseClassOf e.reverseAttr = some "false" ∧
    (¬ t ≤ h * threshold →
      handleEntry h threshold t e true =
        ⟨withClasses e
          (addClass "false" (removeClass (e.animationClass.getD "") e.classList)),
          true, none⟩) ∧
    delegatesToChildren (some "false") = false := by
  have hrc : reverseClassOf e.reverseAttr = some "false" := by
    simp [reverseClassOf, hasReverseClass, hrev, truthy]
  have htr : truthy e.reverseAttr = true := by simp [hrev, truthy]
  refine ⟨by simp [hasReverseClass, hrev, truthy], hrc, ?_, by decide⟩
  intro hnle
  rw [handleEntry_exit_direct h threshold t e hcls hnle htr hnd]
  simp [exitClassList, hrc, withClasses]

/-- Witness for C10 at a concrete exit with `reverse="false"`. -/
theorem C10_false_literal_asymmetry_witness :
    hasReverseClass elemRevFalse.reverseAttr = true ∧
    handleEntry 1000 (3 / 4) 900 elemRevFalse true =
      ⟨withClasses elemRevFalse
        (addClass "false" (removeClass "fade-in" elemRevFalse.classList)),
        true, none⟩ := by
  have H := C10_false_literal_asymmetry 1000 (3 / 4) 900 elemRevFalse
    (by decide) rfl (by decide)
  exact ⟨H.1, H.2.2.1 (by norm_num)⟩

/-! ## Claims about the attribute parsers -/

/-- Counterexample to C4 as stated: `"foopx"` is an unparseable value, yet
`parseThreshold` does not fall back to the default 0.75 — the `px` branch
wins and `parseInt("foopx")` is NaN, which propagates through the division. -/
theorem C4_counterexample :
    parseThreshold (some "foopx") 1000 = none ∧
    parseThreshold (some "foopx") 1000 ≠ some (3 / 4) := by
  have h1 : truthy (some "foopx") = true := by decide
  have h2 : strEndsWith "foopx" "px" = true := by decide
  have h3 : jsParseInt "foopx" = none := by decide
  constructor
  · simp [parseThreshold, h1, h2, h3]
  · simp [parseThreshold, h1, h2, h3]

/-- Claim C4, amended: an absent/empty value yields 0.75; a `px`-suffixed
value yields its integer-prefix parse divided by the viewport height, and
NaN — not the default — when the prefix holds no digits; any other value
yields its float parse when that is a valid number and 0.75 otherwise.
Concretely `"150px"` at height 1000 gives 0.15 and `"10rem"` gives 10. -/
theorem C4_threshold_resolver (value : Option String) (h : ℚ) (v : String) :
    (truthy value = false → parseThreshold value h = some (3 / 4)) ∧
    (value = some v → truthy value = true →
      (strEndsWith v "px" = true →
        (∀ n : ℤ, jsParseInt v = some n →
          parseThreshold value h = some ((n : ℚ) / h)) ∧
        (jsParseInt v = none → parseThreshold value h = none)) ∧
      (strEndsWith v "px" = false →
        (∀ x : ℚ, jsParseFloat v = some x → parseThreshold value h = some x) ∧
        (jsParseFloat v = none → parseThreshold value h = some (3 / 4)))) ∧
    parseThreshold (some "150px") 1000 = some (3 / 20) ∧
    parseThreshold (some "10rem") h = some 10 := by
  refine ⟨?_, ?_, ?_, ?_⟩
  · intro hf
    simp [parseThreshold, hf]
  · rintro rfl ht
    constructor
    · intro hpx
      constructor
      · intro n hn
        simp [parseThreshold, ht, hpx, hn]
      · intro hn
        simp [parseThreshold, ht, hpx, hn]
    · intro hpx
      constructor
      · intro x hx
        simp [parseThreshold, ht, hpx, hx]
      · intro hx
        simp [parseThreshold, ht, hpx, hx]
  · have h1 : truthy (some "150px") = true := by decide
    have h2 : strEndsWith "150px" "px" = true := by decide
    have h3 : jsParseInt "150px" = some 150 := by decide
    norm_num [parseThreshold, h1, h2, h3]
  · have h1 : truthy (some "10rem") = true := by decide
    have h2 : strEndsWith "10rem" "px" = false := by decide
    have h3 : floatScan "10rem" = some (false, [1, 0], [], 0) := by decide
    norm_num [parseThreshold, h1, h2, jsParseFloat, h3, ratOfScan, applyExp,
      digitsToNat, List.foldl]

/-- Witness for the amended C4 at the spec's own example inputs. -/
theorem C4_threshold_resolver_witness :
    parseThreshold (some "150px") 1000 = some (3 / 20) ∧
    parseThreshold (some "10rem") 1000 = some 10 ∧
    parseThreshold none 1000 = some (3 / 4) := by
  have H := C4_threshold_resolver (some "150px") 1000 "150px"
  have H2 := C4_threshold_resolver none 1000 ""
  exact ⟨H.2.2.1, H.2.2.2, H2.1 (by decide)⟩

/-- Counterexample to C8 as stated: the unparseable value `"abc"` does not
yield 0 — `parseFloat("abc")` is NaN and `parseStaggerDelay` returns it. -/
theorem C8_counterexample :
    parseStaggerDelay (some "abc") = none ∧
    parseStaggerDelay (some "abc") ≠ some 0 := by
  have h1 : truthy (some "abc") = true := by decide
  have h2 : strEndsWith "abc" "ms" = false := by decide
  have h3 : strEndsWith "abc" "s" = false := by decide
  have h4 : floatScan "abc" = none := by decide
  constructor
  · simp [parseStaggerDelay, h1, h2, h3, jsParseFloat, h4]
  · simp [parseStaggerDelay, h1, h2, h3, jsParseFloat, h4]

/-- Claim C8, amended: an absent/empty value yields 0; an `ms`-suffixed value
yields its literal numeric-prefix parse; an `s`-suffixed value yields the
parse times 1000; a bare value yields the parse as milliseconds; and a
non-empty unparseable value yields NaN (which the timer API later coerces to
zero delay, but on the asynchronous path), not 0. -/
theorem C8_stagger_resolver (value : Option String) (v : String) :
    (truthy value = false → parseStaggerDelay value = some 0) ∧
    (value = some v → truthy value = true →
      (strEndsWith v "ms" = true → parseStaggerDelay value = jsParseFloat v) ∧
      (strEndsWith v "ms" = false → strEndsWith v "s" = true →
        parseStaggerDelay value = (jsParseFloat v).map (· * 1000)) ∧
      (strEndsWith v "ms" = false → strEndsWith v "s" = false →
        parseStaggerDelay value = jsParseFloat v) ∧
      (jsParseFloat v = none → parseStaggerDelay value = none)) ∧
    parseStaggerDelay (some "100ms") = some 100 ∧
    parseStaggerDelay (some "0.1s") = some 100 ∧
    parseStaggerDelay (some "250") = some 250 := by
  refine ⟨?_, ?_, ?_, ?_, ?_⟩
  · intro hf
    simp [parseStaggerDelay, hf]
  · rintro rfl ht
    refine ⟨?_, ?_, ?_, ?_⟩
    · intro hms
      simp [parseStaggerDelay, ht, hms]
    · intro hms hs
      simp [parseStaggerDelay, ht, hms, hs]
    · intro hms hs
      simp [parseStaggerDelay, ht, hms, hs]
    · intro hnan
      by_cases hms : strEndsWith v "ms" = true
      · simp [parseStaggerDelay, ht, hms, hnan]
      · by_cases hs : strEndsWith v "s" = true
        · simp [parseStaggerDelay, ht, hms, hs, hnan]
        · simp [parseStaggerDelay, ht, hms, hs, hnan]
  · have h1 : truthy (some "100ms") = true := by decide
    have h2 : strEndsWith "100ms" "ms" = true := by decide
    have h3 : floatScan "100ms" = some (false, [1, 0, 0], [], 0) := by decide
    norm_num [parseStaggerDelay, h1, h2, jsParseFloat, h3, ratOfScan, applyExp,
      digitsToNat, List.foldl]
  · have h1 : truthy (some "0.1s") = true := by decide
    have h2 : strEndsWith "0.1s" "ms" = false := by decide
    have h3 : strEndsWith "0.1s" "s" = true := by decide
    have h4 : floatScan "0.1s" = some (false, [0], [1], 0) := by decide
    norm_num [parseStaggerDelay, h1, h2, h3, jsParseFloat, h4, ratOfScan,
      applyExp, digitsToNat, List.foldl]
  · have h1 : truthy (some "250") = true := by decide
    have h2 : strEndsWith "250" "ms" = false := by decide
    have h3 : strEndsWith "250" "s" = false := by decide
    have h4 : floatScan "250" = some (false, [2, 5, 0], [], 0) := by decide
    norm_num [parseStaggerDelay, h1, h2, h3, jsParseFloat, h4, ratOfScan,
      applyExp, digitsToNat, List.foldl]

/-- Witness for the amended C8 at the spec's own example inputs. -/
theorem C8_stagger_resolver_witness :
    parseStaggerDelay (some "100ms") = some 100 ∧
    parseStaggerDelay (some "0.1s") = some 100 ∧
    parseStaggerDelay none = some 0 := by
  have H := C8_stagger_resolver (some "100ms") "100ms"
  have H2 := C8_stagger_resolver none ""
  exact ⟨H.2.2.1, H.2.2.2.1, H2.1 (by decide)⟩

/-! ## Claim about the observer geometry (createPositionObserver) -/

/-- The `rootMargin` pair computed by `createPositionObserver`:
`topMargin = -(h * f)` and `bottomMargin = -(h - h * f - 1)`. -/
def observerRootMargin (h f : ℚ) : ℚ × ℚ :=
  (-(h * f), -(h - h * f - 1))

/-- Modelled `IntersectionObserver` rootMargin semantics: a positive margin
grows the root rect outward, so the effective top boundary of the visibility
region is `0 - topMargin`. -/
def effectiveTop (h f : ℚ) : ℚ :=
  0 - (observerRootMargin h f).1

/-- The effective bottom boundary of the visibility region is
`h + bottomMargin` (same rootMargin semantics). -/
def effectiveBottom (h f : ℚ) : ℚ :=
  h + (observerRootMargin h f).2

/-- Counterexample to C5 as stated: at `h = 1000`, `f = 1/2` the region's
bottom boundary is 501 — one unit below the trigger line — not `h - 1 = 999`,
one unit above the viewport bottom. -/
theorem C5_counterexample :
    effectiveTop 1000 (1 / 2) = 1000 * (1 / 2) ∧
    effectiveBottom 1000 (1 / 2) = 501 ∧
    effectiveBottom 1000 (1 / 2) ≠ 1000 - 1 := by
  norm_num [effectiveTop, effectiveBottom, observerRootMargin]

/-- Claim C5, amended: for every fraction and height the region's top
boundary sits exactly at the trigger line `f * h` and its bottom boundary one
unit below that line (`f * h + 1`), a one-unit band detecting the crossing at
the line rather than over a range. -/
theorem C5_observer_band (h f : ℚ) :
    effectiveTop h f = f * h ∧ effectiveBottom h f = f * h + 1 := by
  constructor
  · simp [effectiveTop, observerRootMargin, mul_comm]
  · simp [effectiveBottom, observerRootMargin]
    ring

/-! ## Child stagger scheduler (animateChildren)

The parent's subtree is a flat list of descendant nodes in document order,
each knowing whether it is a direct child.  Scheduled `setTimeout` callbacks
are modelled as `SchedTimeout` records with fresh numeric ids (the timer
handles); `clearTimeout` removes a pending record, and only pending records
can fire.  The per-parent `childrenAnimations` entry is the `pending` list. -/

/-- A node of the parent's subtree. -/
structure ChildNode where
  isDirectChild : Bool
  classList : List String
deriving DecidableEq, Repr

/-- Debug-overlay artifacts excluded from target resolution. -/
def isDebugArtifact (c : ChildNode) : Bool :=
  hasClass "scroll-animation-trigger-line" c.classList ||
  hasClass "scroll-animation-debug" c.classList

/-- Document-order indices of the resolved animation targets: when the
children attribute names a class (any truthy value other than `"true"`),
all descendants bearing that class; otherwise the direct children — debug
artifacts excluded in both cases. -/
def targetIndices (childrenAttr : Option String) (subtree : List ChildNode) :
    List ℕ :=
  if truthy childrenAttr && childrenAttr != some "true" then
    (subtree.enum.filter fun p =>
      hasClass (childrenAttr.getD "") p.2.classList && ! isDebugArtifact p.2).map
        Prod.fst
  else
    (subtree.enum.filter fun p =>
      p.2.isDirectChild && ! isDebugArtifact p.2).map Prod.fst

/-- A scheduled `setTimeout` callback: its timer handle, the subtree index of
its target, its delay (`none` = NaN delay) and the direction it will apply. -/
structure SchedTimeout where
  id : ℕ
  childIdx : ℕ
  delay : Option ℚ
  animateIn : Bool
deriving DecidableEq, Repr

/-- Scheduler state for one parent: the next fresh timer handle, the pending
timeouts of the parent's current schedule, and the subtree class lists. -/
structure SchedState where
  nextId : ℕ
  pending : List SchedTimeout
  subtree : List ChildNode
deriving DecidableEq, Repr

/-- The class-list update a fan-out applies to one target (the body of the
`setTimeout` callback, and of the synchronous branch): direction "in" adds the
animation class and removes the reverse class; direction "out" does the
opposite, gated on the parent's reverse attribute being truthy. -/
def applyChildAction (parent : Element) (animateIn : Bool) (l : List String) :
    List String :=
  let cls := parent.animationClass.getD ""
  let reverseClass := reverseClassOf parent.reverseAttr
  if animateIn then
    match reverseClass with
    | some rc => removeClass rc (addClass cls l)
    | none => addClass cls l
  else if truthy parent.reverseAttr then
    match reverseClass with
    | some rc => addClass rc (removeClass cls l)
    | none => removeClass cls l
  else l

/-- Update the class list of the subtree node at `idx`. -/
def updateChild : ℕ → (List String → List String) → List ChildNode → List ChildNode
  | _, _, [] => []
  | 0, f, c :: rest => { c with classList := f c.classList } :: rest
  | n + 1, f, c :: rest => c :: updateChild n f rest

/-- The timeouts pushed by the stagger loop: the target at running index `i`
(starting at `j`) gets handle `base + i` and delay `i * staggerDelay`. -/
def buildTimeouts (base : ℕ) (sd : Option ℚ) (b : Bool) :
    ℕ → List ℕ → List SchedTimeout
  | _, [] => []
  | j, idx :: rest =>
    ⟨base + j, idx, sd.map (fun d => (j : ℚ) * d), b⟩ ::
      buildTimeouts base sd b (j + 1) rest

/-- `animateChildren(parent, animateIn)` from src/AttrScrollAnimator.js:
resolve the targets, clear every pending timeout of the parent's previous
schedule, then — without a stagger attribute — apply the action to every
target synchronously, or — with one — schedule target `i` after
`i * staggerDelay`. -/
def animateChildrenM (parent : Element) (animateIn : Bool) (s : SchedState) :
    SchedState :=
  let idxs := targetIndices parent.childrenAttr s.subtree
  let sd : Option ℚ :=
    if truthy parent.staggerAttr then parseStaggerDelay parent.staggerAttr
    else some 0
  if ¬ truthy parent.staggerAttr then
    { nextId := s.nextId,
      pending := [],
      subtree := idxs.foldl
        (fun st idx => updateChild idx (applyChildAction parent animateIn) st)
        s.subtree }
  else
    let ts := buildTimeouts s.nextId sd animateIn 0 idxs
    { nextId := s.nextId + ts.length, pending := ts, subtree := s.subtree }

/-- Firing of the timeout with handle `tid`: a no-op when it is not pending
(cleared or already fired); otherwise it leaves the pending list and applies
its captured action to its target. -/
def fireTimeoutM (parent : Element) (tid : ℕ) (s : SchedState) : SchedState :=
  match s.pending.find? (fun t => t.id == tid) with
  | none => s
  | some t =>
    { nextId := s.nextId,
      pending := s.pending.filter (fun t2 => t2.id ≠ tid),
      subtree := updateChild t.childIdx (applyChildAction parent t.animateIn)
        s.subtree }

theorem buildTimeouts_length (base : ℕ) (sd : Option ℚ) (b : Bool)
    (j : ℕ) (idxs : List ℕ) :
    (buildTimeouts base sd b j idxs).length = idxs.length := by
  induction idxs generalizing j with
  | nil => rfl
  | cons idx rest ih => simp [buildTimeouts, ih]

theorem buildTimeouts_get (base : ℕ) (sd : Option ℚ) (b : Bool)
    (idxs : List ℕ) (j i idx : ℕ) (hi : idxs[i]? = some idx) :
    (buildTimeouts base sd b j idxs)[i]? =
      some ⟨base + (j + i), idx, sd.map (fun d => ((j + i : ℕ) : ℚ) * d), b⟩ := by
  induction idxs generalizing j i with
  | nil => simp at hi
  | cons a rest ih =>
    cases i with
    | zero =>
      simp at hi
      simp [buildTimeouts, hi]
    | succ k =>
      simp at hi
      have heq : j + 1 + k = j + (k + 1) := by omega
      have := ih (j + 1) k hi
      rw [heq] at this
      simpa [buildTimeouts] using this

theorem buildTimeouts_id_lb (base : ℕ) (sd : Option ℚ) (b : Bool)
    (j : ℕ) (idxs : List ℕ) :
    ∀ t ∈ buildTimeouts base sd b j idxs, base + j ≤ t.id := by
  induction idxs generalizing j with
  | nil => simp [buildTimeouts]
  | cons a rest ih =>
    intro t ht
    simp only [buildTimeouts, List.mem_cons] at ht
    rcases ht with rfl | ht
    · simp
    · have := ih (j + 1) t ht
      omega

/-- Claim C7: with a (truthy) stagger attribute parsing to duration `d`, a
fan-out over the resolved targets schedules the target at document-order
index `i` with delay `i * d` and a fresh timer handle; every timeout pending
from the parent's prior schedule is cancelled first (its handle no longer
appears), and firing such a cancelled handle afterwards changes nothing —
no class mutation from the old schedule occurs. -/
theorem C7_stagger_fanout (parent : Element) (b : Bool) (s : SchedState)
    (sa : String) (d : ℚ) (hsa : parent.staggerAttr = some sa) (hne : sa ≠ "")
    (hpd : parseStaggerDelay parent.staggerAttr = some d)
    (hold : ∀ t ∈ s.pending, t.id < s.nextId) :
    (animateChildrenM parent b s).pending.length =
      (targetIndices parent.childrenAttr s.subtree).length ∧
    (∀ i idx, (targetIndices parent.childrenAttr s.subtree)[i]? = some idx →
      (animateChildrenM parent b s).pending[i]? =
        some (SchedTimeout.mk (s.nextId + i) idx (some ((i : ℚ) * d)) b)) ∧
    (∀ t ∈ s.pending, ∀ t2 ∈ (animateChildrenM parent b s).pending,
      t2.id ≠ t.id) ∧
    (∀ t ∈ s.pending,
      fireTimeoutM parent t.id (animateChildrenM parent b s) =
        animateChildrenM parent b s) := by
  have ht : truthy parent.staggerAttr = true := by simp [hsa, truthy, hne]
  have hA : animateChildrenM parent b s =
      { nextId := s.nextId +
          (buildTimeouts s.nextId (some d) b 0
            (targetIndices parent.childrenAttr s.subtree)).length,
        pending := buildTimeouts s.nextId (some d) b 0
          (targetIndices parent.childrenAttr s.subtree),
        subtree := s.subtree } := by
    simp [animateChildrenM, ht, hpd]
  refine ⟨?_, ?_, ?_, ?_⟩
  · rw [hA]
    exact buildTimeouts_length _ _ _ _ _
  · intro i idx hi
    rw [hA]
    have := buildTimeouts_get s.nextId (some d) b
      (targetIndices parent.childrenAttr s.subtree) 0 i idx hi
    simpa using this
  · intro t htp t2 ht2
    rw [hA] at ht2
    have hlb := buildTimeouts_id_lb s.nextId (some d) b 0
      (targetIndices parent.childrenAttr s.subtree) t2 ht2
    have := hold t htp
    omega
  · intro t htp
    have hid : ∀ t2 ∈ (animateChildrenM parent b s).pending,
        ¬ (t2.id == t.id) = true := by
      intro t2 ht2
      rw [hA] at ht2
      have hlb := buildTimeouts_id_lb s.nextId (some d) b 0
        (targetIndices parent.childrenAttr s.subtree) t2 ht2
      have := hold t htp
      simp only [beq_iff_eq]
      omega
    have hf : (animateChildrenM parent b s).pending.find?
        (fun t2 => t2.id == t.id) = none :=
      List.find?_eq_none.mpr hid
    simp [fireTimeoutM, hf]

/-- Parent used by the C7 witness: targets descendants of class `card`,
staggered by 100ms. -/
def parentStagger : Element :=
  ⟨some "fade-in", none, none, some "card", some "100ms", none, []⟩

/-- Three plain `card` children and one stale pending timeout (handle 0)
from a previous schedule. -/
def schedBefore : SchedState :=
  ⟨1, [⟨0, 0, some 0, true⟩],
    [⟨true, ["card"]⟩, ⟨true, ["card"]⟩, ⟨true, ["card"]⟩]⟩

/-- Witness for C7: the new schedule has three entries, the one at index 1
fires after `1 * 100` ms, and firing the cancelled old handle 0 changes
nothing. -/
theorem C7_stagger_fanout_witness :
    (animateChildrenM parentStagger true schedBefore).pending.length = 3 ∧
    (animateChildrenM parentStagger true schedBefore).pending[1]? =
      some (SchedTimeout.mk 2 1 (some 100) true) ∧
    fireTimeoutM parentStagger 0 (animateChildrenM parentStagger true schedBefore) =
      animateChildrenM parentStagger true schedBefore := by
  have hpd : parseStaggerDelay parentStagger.staggerAttr = some 100 := by
    have h1 : truthy (some "100ms") = true := by decide
    have h2 : strEndsWith "100ms" "ms" = true := by decide
    have h3 : floatScan "100ms" = some (false, [1, 0, 0], [], 0) := by
      decide
    show parseStaggerDelay (some "100ms") = some 100
    norm_num [parseStaggerDelay, h1, h2, jsParseFloat, h3, ratOfScan, applyExp,
      digitsToNat, List.foldl]
  have H := C7_stagger_fanout parentStagger true schedBefore "100ms" 100 rfl
    (by decide) hpd (by decide)
  have hidx : targetIndices parentStagger.childrenAttr schedBefore.subtree =
      [0, 1, 2] := by decide
  refine ⟨?_, ?_, ?_⟩
  · rw [H.1, hidx]
    rfl
  · have h2 := H.2.1 1 1 (by rw [hidx]; rfl)
    simpa [schedBefore] using h2
  · exact H.2.2.2 ⟨0, 0, some 0, true⟩ (by simp [schedBefore])

/-! ## Lifecycle controller (constructor / init / refresh / destroy)

The engine state keeps what the claims observe: whether the `resize` listener
installed by the constructor is still attached, whether a debounced refresh
is pending, the per-fraction observers with the element ids they observe,
and the registry maps.  Elements are referred to by numeric ids; the document
is a list of `(id, element)` pairs in scan order.  The debug overlay and the
per-parent timeout map are not part of this state (no lifecycle claim needs
them).  `debounceElapse h` is the debounce timer firing after the quiet
period, with `h` the viewport height at that moment. -/

/-- One `IntersectionObserver` keyed by its resolved fraction (`none` = NaN;
JS `Map` keys use SameValueZero, so NaN is a legal key). -/
structure Observer where
  fraction : Option ℚ
  targets : List ℕ
deriving DecidableEq, Repr

/-- The engine's per-instance state. -/
structure Engine where
  resizeListenerAttached : Bool
  debouncePending : Bool
  positionObservers : List Observer
  observedElements : List ℕ
  observedThresholds : List (ℕ × Option ℚ)
  hasAnimatedInIds : List ℕ
deriving DecidableEq, Repr

/-- State right after the constructor ran: listener attached, nothing
registered yet. -/
def engineStart : Engine :=
  ⟨true, false, [], [], [], []⟩

/-- `createPositionObserver(position).observe(element)`: reuse the observer
keyed by this fraction if it exists, else create it; then observe `id`. -/
def observeIn (pos : Option ℚ) (id : ℕ) (obs : List Observer) : List Observer :=
  if obs.any (fun o => o.fraction == pos) then
    obs.map fun o =>
      if o.fraction == pos then { o with targets := o.targets ++ [id] } else o
  else obs ++ [⟨pos, [id]⟩]

/-- One step of the `init` scan loop: skip the element when its animation
class attribute is falsy or its class list already carries the class;
otherwise resolve the threshold against the current height and register. -/
def registerElement (h : ℚ) (s : Engine) (p : ℕ × Element) : Engine :=
  let e := p.2
  if ¬ truthy e.animationClass ∨
      hasClass (e.animationClass.getD "") e.classList then s
  else
    let pos := parseThreshold e.thresholdAttr h
    { resizeListenerAttached := s.resizeListenerAttached,
      debouncePending := s.debouncePending,
      positionObservers := observeIn pos p.1 s.positionObservers,
      observedElements := s.observedElements ++ [p.1],
      observedThresholds := s.observedThresholds ++ [(p.1, pos)],
      hasAnimatedInIds := s.hasAnimatedInIds }

/-- `init()`: scan the document and register each eligible element. -/
def initEngine (doc : List (ℕ × Element)) (h : ℚ) (s : Engine) : Engine :=
  doc.foldl (registerElement h) s

/-- `destroy()`: remove the `resize` listener, disconnect and drop every
observer, clear every registry.  The pending debounce timer is NOT cleared
(the source never clears it). -/
def destroyEngine (s : Engine) : Engine :=
  ⟨false, s.debouncePending, [], [], [], []⟩

/-- External events the lifecycle reacts to. -/
inductive EngineEv
  | resize
  | debounceElapse (h : ℚ)

/-- Event semantics: a `resize` invokes the debounced handler only while the
listener is attached (scheduling/resetting the quiet-period timer); when the
quiet period elapses with a pending timer, `refresh()` runs:
`destroy()` then `init()` against the current height. -/
def stepEv (doc : List (ℕ × Element)) (s : Engine) : EngineEv → Engine
  | EngineEv.resize =>
    if s.resizeListenerAttached then
      { s with debouncePending := true }
    else s
  | EngineEv.debounceElapse h =>
    if s.debouncePending then
      initEngine doc h (destroyEngine { s with debouncePending := false })
    else s

theorem initEngine_resizeListenerAttached (doc : List (ℕ × Element)) (h : ℚ)
    (s : Engine) :
    (initEngine doc h s).resizeListenerAttached = s.resizeListenerAttached := by
  induction doc generalizing s with
  | nil => rfl
  | cons p rest ih =>
    show (initEngine rest h (registerElement h s p)).resizeListenerAttached = _
    rw [ih]
    simp only [registerElement]
    split_ifs <;> rfl

theorem initEngine_debouncePending (doc : List (ℕ × Element)) (h : ℚ)
    (s : Engine) :
    (initEngine doc h s).debouncePending = s.debouncePending := by
  induction doc generalizing s with
  | nil => rfl
  | cons p rest ih =>
    show (initEngine rest h (registerElement h s p)).debouncePending = _
    rw [ih]
    simp only [registerElement]
    split_ifs <;> rfl

/-- The document used for the C3 bug trace: one eligible element. -/
def docC3 : List (ℕ × Element) := [(0, elemPlain)]

/-- Engine state after the first resize and the elapse of its debounce
quiet period (viewport height now 500). -/
def engineAfterFirstRebuild : Engine :=
  stepEv docC3 (stepEv docC3 engineStart EngineEv.resize) (EngineEv.debounceElapse 500)

/-- Claim C3 fails on the code: the first debounced resize does run a full
rebuild (the element is re-registered with its threshold resolved against
the new height), but `refresh()` runs `destroy()`, which removes the
`resize` listener, and `init()` never re-adds it — so every later resize is
ignored and no further rebuild can ever fire.  The claim's "this holds for
every resize during the engine's lifetime" is false from the second resize
on. -/
theorem C3_rebuild_only_once :
    engineAfterFirstRebuild.observedThresholds = [(0, some (3 / 4))] ∧
    engineAfterFirstRebuild.resizeListenerAttached = false ∧
    stepEv docC3 engineAfterFirstRebuild EngineEv.resize = engineAfterFirstRebuild ∧
    (stepEv docC3 engineAfterFirstRebuild EngineEv.resize).debouncePending = false ∧
    (∀ h2 : ℚ,
      stepEv docC3 (stepEv docC3 engineAfterFirstRebuild EngineEv.resize)
        (EngineEv.debounceElapse h2) = engineAfterFirstRebuild) := by
  have hatt : engineAfterFirstRebuild.resizeListenerAttached = false := by
    show (stepEv docC3 (stepEv docC3 engineStart EngineEv.resize)
      (EngineEv.debounceElapse 500)).resizeListenerAttached = false
    simp only [stepEv, engineStart, if_true]
    rw [initEngine_resizeListenerAttached]
    rfl
  have hpen : engineAfterFirstRebuild.debouncePending = false := by
    show (stepEv docC3 (stepEv docC3 engineStart EngineEv.resize)
      (EngineEv.debounceElapse 500)).debouncePending = false
    simp only [stepEv, engineStart, if_true]
    rw [initEngine_debouncePending]
    rfl
  have hres : stepEv docC3 engineAfterFirstRebuild EngineEv.resize =
      engineAfterFirstRebuild := by
    simp only [stepEv]
    rw [hatt]
    simp
  refine ⟨rfl, hatt, hres, ?_, ?_⟩
  · rw [hres]
    exact hpen
  · intro h2
    rw [hres]
    simp only [stepEv]
    rw [hpen]
    simp

/-- Claim C9: an element whose animation-class attribute is falsy, or whose
class list already contains its animation class, is skipped by the scan:
its id is never observed by any watcher, never added to the registries; and
a crossing callback for an element lacking the attribute is a no-op. -/
theorem C9_scan_skips (h : ℚ) (doc : List (ℕ × Element)) (id : ℕ) (s : Engine)
    (hskip : ∀ e : Element, (id, e) ∈ doc →
      truthy e.animationClass = false ∨
      hasClass (e.animationClass.getD "") e.classList = true)
    (h1 : id ∉ s.observedElements)
    (h2 : ∀ pr ∈ s.observedThresholds, pr.1 ≠ id)
    (h3 : ∀ o ∈ s.positionObservers, id ∉ o.targets) :
    id ∉ (initEngine doc h s).observedElements ∧
    (∀ pr ∈ (initEngine doc h s).observedThresholds, pr.1 ≠ id) ∧
    (∀ o ∈ (initEngine doc h s).positionObservers, id ∉ o.targets) ∧
    (∀ (threshold t : ℚ) (e : Element) (b : Bool),
      truthy e.animationClass = false →
      handleEntry h threshold t e b = ⟨e, b, none⟩) := by
  have main : ∀ (doc : List (ℕ × Element)) (s : Engine),
      (∀ e : Element, (id, e) ∈ doc →
        truthy e.animationClass = false ∨
        hasClass (e.animationClass.getD "") e.classList = true) →
      id ∉ s.observedElements →
      (∀ pr ∈ s.observedThresholds, pr.1 ≠ id) →
      (∀ o ∈ s.positionObservers, id ∉ o.targets) →
      id ∉ (initEngine doc h s).observedElements ∧
      (∀ pr ∈ (initEngine doc h s).observedThresholds, pr.1 ≠ id) ∧
      (∀ o ∈ (initEngine doc h s).positionObservers, id ∉ o.targets) := by
    intro doc
    induction doc with
    | nil =>
      intro s _ g1 g2 g3
      exact ⟨g1, g2, g3⟩
    | cons p rest ih =>
      intro s hsk g1 g2 g3
      have hstep : id ∉ (registerElement h s p).observedElements ∧
          (∀ pr ∈ (registerElement h s p).observedThresholds, pr.1 ≠ id) ∧
          (∀ o ∈ (registerElement h s p).positionObservers, id ∉ o.targets) := by
        simp only [registerElement]
        split_ifs with hc
        · exact ⟨g1, g2, g3⟩
        · have hne : p.1 ≠ id := by
            intro heq
            rcases hsk p.2 (by rw [← heq]; exact List.mem_cons_self _ _) with hf | hf
            · exact hc (Or.inl (by simp [hf]))
            · exact hc (Or.inr hf)
          refine ⟨?_, ?_, ?_⟩
          · simp only [List.mem_append, List.mem_singleton]
            rintro (hin | rfl)
            · exact g1 hin
            · exact hne rfl
          · intro pr hpr
            simp only [List.mem_append, List.mem_singleton] at hpr
            rcases hpr with hin | rfl
            · exact g2 pr hin
            · exact hne
          · intro o ho
            unfold observeIn at ho
            split_ifs at ho
            · simp only [List.mem_map] at ho
              obtain ⟨o0, ho0, rfl⟩ := ho
              split_ifs
              · simp only [List.mem_append, List.mem_singleton]
                rintro (hin | rfl)
                · exact g3 o0 ho0 hin
                · exact hne rfl
              · exact g3 o0 ho0
            · simp only [List.mem_append, List.mem_singleton] at ho
              rcases ho with hin | rfl
              · exact g3 o hin
              · simp only [List.mem_singleton]
                intro hid
                exact hne hid.symm
      show id ∉ (initEngine rest h (registerElement h s p)).observedElements ∧ _
      exact ih (registerElement h s p)
        (fun e he => hsk e (List.mem_cons_of_mem _ he))
        hstep.1 hstep.2.1 hstep.2.2
  have base := main doc s hskip h1 h2 h3
  exact ⟨base.1, base.2.1, base.2.2, fun threshold t e b hf =>
    handleEntry_no_cls h threshold t e b hf⟩

/-- Elements for the C9 witness: one with no animation-class attribute, one
that already carries its class at scan time, one eligible. -/
def elemNoCls : Element := ⟨none, none, none, none, none, none, ["static"]⟩

def elemAlready : Element :=
  ⟨some "fade-in", none, none, none, none, none, ["fade-in"]⟩

def docC9 : List (ℕ × Element) :=
  [(0, elemNoCls), (1, elemAlready), (2, elemPlain)]

/-- Witness for C9: in a scan over `docC9` starting from the fresh engine,
the already-animated element (id 1) is never registered, and an intersection
callback for the attribute-less element is inert. -/
theorem C9_scan_skips_witness :
    (1 : ℕ) ∉ (initEngine docC9 1000 engineStart).observedElements ∧
    handleEntry 1000 (3 / 4) 100 elemNoCls false = ⟨elemNoCls, false, none⟩ := by
  have H := C9_scan_skips 1000 docC9 1 engineStart
    (by
      intro e he
      simp only [docC9, List.mem_cons, List.not_mem_nil, or_false,
        Prod.mk.injEq] at he
      rcases he with ⟨h0, _⟩ | ⟨-, rfl⟩ | ⟨h2, _⟩
      · exact absurd h0 (by decide)
      · right
        decide
      · exact absurd h2 (by decide))
    (by simp [engineStart]) (by simp [engineStart]) (by simp [engineStart])
  exact ⟨H.1, H.2.2.2 (3 / 4) 100 elemNoCls false (by decide)⟩

end ASA
